import Mathlib

/-!
Shallow embedding of `src/wt_browser.py` (class `WiredTigerBrowser`) and of the
Python runtime behaviour it relies on (UTF-8 `bytes.decode`, `bytes.hex`,
`str()`/`repr()` of scalars and tuples), together with proofs of the spec's
claims about it.

Conventions:
* Python byte strings are `List Nat` with each element `< 256`.
* A cursor scan is a finite list of items followed by an optional engine
  error raised after the listed items have been yielded (`Scan`).
* Resource events (session/cursor open and close) and file operations are
  recorded as explicit traces so that resource discipline and file-write
  atomicity are provable statements.
-/

/-- A Python value as produced by a WiredTiger cursor: `int`, `str`,
`bytes`/`bytearray`, or a composite (tuple) value. -/
inductive PyValue where
  | int (n : Int)
  | str (s : String)
  | bytes (bs : List Nat)
  | tup (vs : List PyValue)
deriving Repr

/-! ### UTF-8, modelled from CPython's strict `bytes.decode("utf-8")` -/

/-- Standard UTF-8 encoding of one Unicode scalar value (1 to 4 bytes). -/
def utf8EncodeChar (c : Nat) : List Nat :=
  if c < 0x80 then [c]
  else if c < 0x800 then [0xC0 + c / 0x40, 0x80 + c % 0x40]
  else if c < 0x10000 then
    [0xE0 + c / 0x1000, 0x80 + c / 0x40 % 0x40, 0x80 + c % 0x40]
  else
    [0xF0 + c / 0x40000, 0x80 + c / 0x1000 % 0x40, 0x80 + c / 0x40 % 0x40,
      0x80 + c % 0x40]

/-- UTF-8 encoding of a text, one code point at a time. -/
def utf8Encode (s : String) : List Nat :=
  (s.data.map (fun ch => utf8EncodeChar ch.toNat)).flatten

mutual

/-- Strict UTF-8 decoding to a list of code points, modelled from CPython's
`bytes.decode("utf-8")`: rejects overlong encodings, surrogates, code points
above `U+10FFFF`, stray continuation bytes and truncated sequences (returns
`none` exactly when CPython raises `UnicodeDecodeError`).  The lead byte
picks the sequence length; `utf8DecodeTail2/3/4` check the continuation
bytes (with the lead-byte-dependent bounds that exclude overlong encodings
and surrogates) and decode the rest. -/
def utf8DecodeCps : List Nat → Option (List Nat)
  | [] => some []
  | b0 :: rest =>
    if b0 < 0x80 then (utf8DecodeCps rest).map (b0 :: ·)
    else if 0xC2 ≤ b0 ∧ b0 ≤ 0xDF then utf8DecodeTail2 b0 rest
    else if 0xE0 ≤ b0 ∧ b0 ≤ 0xEF then utf8DecodeTail3 b0 rest
    else if 0xF0 ≤ b0 ∧ b0 ≤ 0xF4 then utf8DecodeTail4 b0 rest
    else none

/-- Continuation of a 2-byte UTF-8 sequence. -/
def utf8DecodeTail2 (b0 : Nat) : List Nat → Option (List Nat)
  | b1 :: rest2 =>
    if 0x80 ≤ b1 ∧ b1 ≤ 0xBF then
      (utf8DecodeCps rest2).map (((b0 - 0xC0) * 0x40 + (b1 - 0x80)) :: ·)
    else none
  | [] => none

/-- Continuation of a 3-byte UTF-8 sequence. -/
def utf8DecodeTail3 (b0 : Nat) : List Nat → Option (List Nat)
  | b1 :: b2 :: rest2 =>
    if ((if b0 = 0xE0 then 0xA0 else 0x80) ≤ b1 ∧
          b1 ≤ (if b0 = 0xED then 0x9F else 0xBF)) ∧
        0x80 ≤ b2 ∧ b2 ≤ 0xBF then
      (utf8DecodeCps rest2).map
        (((b0 - 0xE0) * 0x1000 + (b1 - 0x80) * 0x40 + (b2 - 0x80)) :: ·)
    else none
  | _ => none

/-- Continuation of a 4-byte UTF-8 sequence. -/
def utf8DecodeTail4 (b0 : Nat) : List Nat → Option (List Nat)
  | b1 :: b2 :: b3 :: rest2 =>
    if ((if b0 = 0xF0 then 0x90 else 0x80) ≤ b1 ∧
          b1 ≤ (if b0 = 0xF4 then 0x8F else 0xBF)) ∧
        (0x80 ≤ b2 ∧ b2 ≤ 0xBF) ∧ 0x80 ≤ b3 ∧ b3 ≤ 0xBF then
      (utf8DecodeCps rest2).map
        (((b0 - 0xF0) * 0x40000 + (b1 - 0x80) * 0x1000 +
            (b2 - 0x80) * 0x40 + (b3 - 0x80)) :: ·)
    else none
  | _ => none

end

/-- Rebuild a `String` from a list of (valid) code points. -/
def stringOfCps (cs : List Nat) : String := ⟨cs.map Char.ofNat⟩

/-- `bytes.decode("utf-8")` as an optional `String`. -/
def pyDecodeUtf8 (bs : List Nat) : Option String :=
  (utf8DecodeCps bs).map stringOfCps

/-! ### Hex rendering, modelled from CPython's `bytes.hex` / `bytes.fromhex` -/

/-- The lowercase hexadecimal digit for `n < 16`. -/
def hexDigitChar (n : Nat) : Char :=
  match n with
  | 0 => '0' | 1 => '1' | 2 => '2' | 3 => '3' | 4 => '4'
  | 5 => '5' | 6 => '6' | 7 => '7' | 8 => '8' | 9 => '9'
  | 10 => 'a' | 11 => 'b' | 12 => 'c' | 13 => 'd' | 14 => 'e'
  | _ => 'f'

/-- Two lowercase hex digits of a byte. -/
def byteHexChars (b : Nat) : List Char :=
  [hexDigitChar (b / 16), hexDigitChar (b % 16)]

/-- `bytes.hex()`: lowercase hex rendering of a byte string. -/
def bytesHex (bs : List Nat) : String :=
  ⟨(bs.map byteHexChars).flatten⟩

/-- Value of one hex digit character (either case), as in `bytes.fromhex`. -/
def hexDigitVal (c : Char) : Option Nat :=
  if 48 ≤ c.toNat ∧ c.toNat ≤ 57 then some (c.toNat - 48)
  else if 97 ≤ c.toNat ∧ c.toNat ≤ 102 then some (c.toNat - 87)
  else if 65 ≤ c.toNat ∧ c.toNat ≤ 70 then some (c.toNat - 55)
  else none

/-- Decode a hex character string back to bytes (two digits per byte). -/
def hexDecodeChars : List Char → Option (List Nat)
  | [] => some []
  | [_] => none
  | c1 :: c2 :: rest =>
    match hexDigitVal c1, hexDigitVal c2, hexDecodeChars rest with
    | some h, some l, some bs => some ((h * 16 + l) :: bs)
    | _, _, _ => none

/-- `bytes.fromhex` on a string. -/
def hexDecode (s : String) : Option (List Nat) := hexDecodeChars s.data

/-! ### `str()` / `repr()`, modelled from CPython for the values above -/

/-- The single-quote character `'`. -/
def squote : Char := Char.ofNat 39

/-- The double-quote character `"`. -/
def dquote : Char := Char.ofNat 34

/-- The backslash character. -/
def bslash : Char := Char.ofNat 92

/-- Four hex digits (for `\uNNNN` escapes). -/
def hex4Chars (n : Nat) : List Char := byteHexChars (n / 256) ++ byteHexChars (n % 256)

/-- Eight hex digits (for `\UNNNNNNNN` escapes). -/
def hex8Chars (n : Nat) : List Char := hex4Chars (n / 65536) ++ hex4Chars (n % 65536)

/-- CPython's quote choice for `repr` of a `str`: a single quote, unless the
text contains a single quote and no double quote. -/
def strQuoteChar (cs : List Char) : Char :=
  if cs.contains squote && !cs.contains dquote then dquote else squote

/-- One character of `repr(str)` under quote character `q`, modelled from
CPython: backslash and the quote are backslash-escaped, tab/newline/return
use their short escapes, printable characters pass through unchanged
(printability modelled for the ASCII range; CPython additionally passes
printable non-ASCII characters through), the rest are hex-escaped. -/
def reprEscChar (q c : Char) : List Char :=
  if c = bslash ∨ c = q then [bslash, c]
  else if c.toNat = 9 then [bslash, 't']
  else if c.toNat = 10 then [bslash, 'n']
  else if c.toNat = 13 then [bslash, 'r']
  else if 0x20 ≤ c.toNat ∧ c.toNat ≤ 0x7E then [c]
  else if c.toNat < 0x100 then bslash :: 'x' :: byteHexChars c.toNat
  else if c.toNat < 0x10000 then bslash :: 'u' :: hex4Chars c.toNat
  else bslash :: 'U' :: hex8Chars c.toNat

/-- `repr(str)`, modelled from CPython (quote choice plus escaping). -/
def pyReprStr (s : String) : String :=
  ⟨strQuoteChar s.data :: (s.data.map (reprEscChar (strQuoteChar s.data))).flatten
    ++ [strQuoteChar s.data]⟩

/-- CPython's quote choice for `repr` of `bytes` (byte values 39 and 34). -/
def bytesQuoteChar (bs : List Nat) : Char :=
  if bs.contains 39 && !bs.contains 34 then dquote else squote

/-- One byte of `repr(bytes)` under quote character `q`, modelled from
CPython: backslash/quote escaped, tab/newline/return short escapes,
printable ASCII passes through, the rest hex-escaped. -/
def bytesReprEscByte (q : Char) (b : Nat) : List Char :=
  if b = 92 ∨ b = q.toNat then [bslash, Char.ofNat b]
  else if b = 9 then [bslash, 't']
  else if b = 10 then [bslash, 'n']
  else if b = 13 then [bslash, 'r']
  else if 0x20 ≤ b ∧ b ≤ 0x7E then [Char.ofNat b]
  else bslash :: 'x' :: byteHexChars b

/-- `repr(bytes)` (which is also `str(bytes)`), modelled from CPython:
a `b` prefix, a quote, the escaped bytes, a closing quote. -/
def pyReprBytes (bs : List Nat) : String :=
  ⟨'b' :: bytesQuoteChar bs :: (bs.map (bytesReprEscByte (bytesQuoteChar bs))).flatten
    ++ [bytesQuoteChar bs]⟩

mutual

/-- `repr(v)`, modelled from CPython for the values a WiredTiger cursor can
yield: decimal for `int`, quoted-and-escaped for `str`, `b'...'` for
`bytes`, and for a tuple the parenthesized `", "`-join of the elements'
`repr` (with the trailing comma of a 1-tuple). -/
def pyRepr : PyValue → String
  | .int n => toString n
  | .str s => pyReprStr s
  | .bytes bs => pyReprBytes bs
  | .tup vs =>
    "(" ++ String.intercalate ", " (pyReprList vs) ++
      (if vs.length = 1 then ",)" else ")")

/-- `repr` mapped over a list of values. -/
def pyReprList : List PyValue → List String
  | [] => []
  | v :: vs => pyRepr v :: pyReprList vs

end

/-- `str(v)`, modelled from CPython: identity on `str`, decimal for `int`,
and the `repr` rendering for `bytes` and tuples (neither defines its own
`__str__`). -/
def pyStr : PyValue → String
  | .int n => toString n
  | .str s => s
  | .bytes bs => pyReprBytes bs
  | .tup vs => pyRepr (.tup vs)

/-! ### `WiredTigerBrowser._serialize_value` -/

/-- `_serialize_value` from `src/wt_browser.py`: for `bytes`/`bytearray`,
try UTF-8 decoding and fall back to `bytes.hex()` on `UnicodeDecodeError`;
for a tuple, `str(value)`; otherwise `str(value)`. -/
def serialize_value (v : PyValue) : String :=
  match v with
  | .bytes bs =>
    match pyDecodeUtf8 bs with
    | some s => s
    | none => bytesHex bs
  | .tup vs => pyStr (.tup vs)
  | v => pyStr v

/-! ### The engine model: cursor scans, the catalog, resource events

A cursor scan is modelled as the finite list of items it yields followed by
an optional engine-level error raised after those items (`fault`).  A table
absent from `DB.tables` makes `open_cursor` on it raise.  Session and cursor
lifecycle is recorded as an explicit event trace; per WiredTiger semantics,
closing a session also releases every cursor opened within it, which is how
`runEvents` interprets `closeSession`. -/

/-- One cursor scan: the yielded items, then an optional raised error. -/
structure Scan (α : Type) where
  rows : List α
  fault : Option String
deriving DecidableEq

/-- The engine state a connection sees: the metadata catalog and, per table
name, the table's scan (or `none` when opening its cursor raises). -/
structure DB where
  metadata : Scan (String × String)
  tables : String → Option (Scan (PyValue × PyValue))

/-- Session/cursor lifecycle events emitted by an operation. -/
inductive Ev where
  | openSession
  | closeSession
  | openCursor
  | closeCursor
deriving DecidableEq

/-- The JSON document `export_table_to_json` writes. -/
structure JsonDoc where
  table : String
  record_count : Nat
  records : List (String × String)
deriving DecidableEq

/-- File-system side effects of an export. -/
inductive FileOp where
  | mkdirParents
  | jsonWrite (doc : JsonDoc)
  | csvRow (row : List String)
deriving DecidableEq

deriving instance DecidableEq for Except

/-- Outcome of one browser operation: its result (or propagated error), its
session/cursor event trace, and its file operations in order. -/
structure OpResult (α : Type) where
  result : Except String α
  events : List Ev
  fileOps : List FileOp
deriving DecidableEq

/-- The dictionary `get_table_info` returns. -/
structure TableInfo where
  name : String
  exists_ : Bool
  config : Option String
  record_count : Nat
  error : Option String
deriving DecidableEq

/-- The `RuntimeError` message used by all four operations when `self.conn`
is `None`. -/
def notConnectedMsg : String := "Database connection not open. Call open() first."

/-- The engine's error for opening a cursor on a missing table (modelled). -/
def noSuchTableMsg (name : String) : String := "No such table: " ++ name

/-- The metadata key of a table, `f"table:{table_name}"`. -/
def tableKey (name : String) : String := "table:" ++ name

/-- `key.startswith("table:")` on the key's characters. -/
def hasTableNS (l : List Char) : Bool :=
  match l with
  | c1 :: c2 :: c3 :: c4 :: c5 :: c6 :: _ =>
    c1 = 't' && c2 = 'a' && c3 = 'b' && c4 = 'l' && c5 = 'e' && c6 = ':'
  | _ => false

/-- `key.split(":", 1)[1]`: the text after the first colon. -/
def splitColonTail (k : String) : String :=
  ⟨(k.data.dropWhile (fun c => c != ':')).drop 1⟩

/-! ### Python string ordering (code-point lexicographic), for `sorted` -/

/-- Lexicographic strict comparison of char lists by code point, as Python
compares strings. -/
def cpLt : List Char → List Char → Bool
  | _, [] => false
  | [], _ :: _ => true
  | a :: as, b :: bs =>
    if a.toNat < b.toNat then true
    else if b.toNat < a.toNat then false
    else cpLt as bs

/-- Python's `<` on strings. -/
def pyStrLt (a b : String) : Bool := cpLt a.data b.data

/-- Python's `<=` on strings. -/
def pyStrLe (a b : String) : Bool := !pyStrLt b a

/-- `pyStrLe` as a decidable relation (for `List.insertionSort`). -/
def pyLeProp (a b : String) : Prop := pyStrLe a b = true

/-- `pyStrLt` as a relation (strict ascending order). -/
def pyLtProp (a b : String) : Prop := pyStrLt a b = true

instance : DecidableRel pyLeProp := fun a b => instDecidableEqBool (pyStrLe a b) true

/-- Python's `sorted` on strings: a sort that is ascending for `pyLeProp`
and a permutation of its input. -/
def pySorted (l : List String) : List String := List.insertionSort pyLeProp l

/-! ### The four operations of `WiredTigerBrowser` -/

/-- The table names collected by `list_tables`' metadata loop: keys with the
`table:` namespace, prefix stripped via `split(":", 1)[1]`. -/
def listTablesNames (rows : List (String × String)) : List String :=
  (rows.filter (fun kv => hasTableNS kv.1.data)).map (fun kv => splitColonTail kv.1)

/-- `list_tables` body, given an open connection: scan the metadata cursor,
collect `table:`-prefixed names, close cursor and session (`finally`), and
return the names sorted.  A metadata fault propagates after the `finally`
closes the session (the cursor's own `close` is then skipped). -/
def list_tables_run (db : DB) : OpResult (List String) :=
  match db.metadata.fault with
  | some msg =>
    ⟨.error msg, [.openSession, .openCursor, .closeSession], []⟩
  | none =>
    ⟨.ok (pySorted (listTablesNames db.metadata.rows)),
      [.openSession, .openCursor, .closeCursor, .closeSession], []⟩

/-- The metadata loop of `get_table_info`: first entry whose key equals the
target, stopping early on a match (`break`). -/
def findFirstMatch : List (String × String) → String → Option String
  | [], _ => none
  | (k, v) :: rest, target => if k = target then some v else findFirstMatch rest target

/-- The `error` message `get_table_info` records when counting fails. -/
def countErrMsg (msg : String) : String := "Could not count records: " ++ msg

/-- `get_table_info` body, given an open connection.  The metadata cursor is
scanned with an early `break`; if the table exists, a full count scan runs
inside a local `try/except` whose handler records the message in `error` —
note `info["record_count"] = count` runs only after the loop, so a scan
fault leaves `record_count` at its initial `0`.  The `finally` closes the
session on every path. -/
def get_table_info_run (db : DB) (name : String) : OpResult TableInfo :=
  match findFirstMatch db.metadata.rows (tableKey name) with
  | some cfg =>
    match db.tables name with
    | none =>
      ⟨.ok ⟨name, true, some cfg, 0, some (countErrMsg (noSuchTableMsg name))⟩,
        [.openSession, .openCursor, .closeCursor, .closeSession], []⟩
    | some scan =>
      match scan.fault with
      | some msg =>
        ⟨.ok ⟨name, true, some cfg, 0, some (countErrMsg msg)⟩,
          [.openSession, .openCursor, .closeCursor, .openCursor, .closeSession], []⟩
      | none =>
        ⟨.ok ⟨name, true, some cfg, scan.rows.length, none⟩,
          [.openSession, .openCursor, .closeCursor, .openCursor, .closeCursor,
            .closeSession], []⟩
  | none =>
    match db.metadata.fault with
    | some msg => ⟨.error msg, [.openSession, .openCursor, .closeSession], []⟩
    | none =>
      ⟨.ok ⟨name, false, none, 0, none⟩,
        [.openSession, .openCursor, .closeCursor, .closeSession], []⟩

/-- The truthiness test `if limit and count >= limit` from the export loops:
`None` and `0` are falsy, any other value enables the `count >= limit`
comparison. -/
def limitHit (limit : Option Int) (count : Nat) : Bool :=
  match limit with
  | none => false
  | some l => l != 0 && decide (l ≤ (count : Int))

/-- Both serialized fields of one record. -/
def serPair (kv : PyValue × PyValue) : String × String :=
  (serialize_value kv.1, serialize_value kv.2)

/-- The shared export loop: serialize each record, count it, and `break`
once `limit and count >= limit`.  Returns the propagated error (if the
cursor faulted before the loop finished), the final `count`, and the
serialized records consumed, in order. -/
def exportScan : List (PyValue × PyValue) → Option String → Option Int → Nat →
    Option String × Nat × List (String × String)
  | [], fault, _, count => (fault, count, [])
  | kv :: rest, fault, limit, count =>
    if limitHit limit (count + 1) then (none, count + 1, [serPair kv])
    else
      let r := exportScan rest fault limit (count + 1)
      (r.1, r.2.1, serPair kv :: r.2.2)

/-- `export_table_to_json` body, given an open connection: buffer all
serialized records, close the cursor, and only then create directories and
write the single JSON document `{table, record_count, records}`.  On a scan
fault the error propagates before any file operation; the `finally` closes
the session. -/
def export_table_to_json_run (db : DB) (name : String) (limit : Option Int) :
    OpResult JsonDoc :=
  match db.tables name with
  | none => ⟨.error (noSuchTableMsg name), [.openSession, .closeSession], []⟩
  | some scan =>
    let r := exportScan scan.rows scan.fault limit 0
    match r.1 with
    | some msg => ⟨.error msg, [.openSession, .openCursor, .closeSession], []⟩
    | none =>
      ⟨.ok ⟨name, r.2.1, r.2.2⟩,
        [.openSession, .openCursor, .closeCursor, .closeSession],
        [.mkdirParents, .jsonWrite ⟨name, r.2.1, r.2.2⟩]⟩

/-- The CSV rows for a list of serialized records. -/
def csvRowOps (rs : List (String × String)) : List FileOp :=
  rs.map (fun r => FileOp.csvRow [r.1, r.2])

/-- `export_table_to_csv` body, given an open connection: create directories
and the file and write the header row before the loop, then stream one CSV
row per record; a scan fault leaves the already-written rows in place and
propagates; the `finally` closes the session. -/
def export_table_to_csv_run (db : DB) (name : String) (limit : Option Int) :
    OpResult Unit :=
  match db.tables name with
  | none => ⟨.error (noSuchTableMsg name), [.openSession, .closeSession], []⟩
  | some scan =>
    let r := exportScan scan.rows scan.fault limit 0
    match r.1 with
    | some msg =>
      ⟨.error msg, [.openSession, .openCursor, .closeSession],
        .mkdirParents :: .csvRow ["key", "value"] :: csvRowOps r.2.2⟩
    | none =>
      ⟨.ok (), [.openSession, .openCursor, .closeCursor, .closeSession],
        .mkdirParents :: .csvRow ["key", "value"] :: csvRowOps r.2.2⟩

/-! ### The browser state machine (`self.conn`) -/

/-- `list_tables` as invoked on the browser: guarded by the `self.conn`
check; returns the outcome and the (unchanged) connection state. -/
def list_tables (conn : Option DB) : OpResult (List String) × Option DB :=
  match conn with
  | none => (⟨.error notConnectedMsg, [], []⟩, none)
  | some db => (list_tables_run db, some db)

/-- `get_table_info` as invoked on the browser. -/
def get_table_info (conn : Option DB) (name : String) :
    OpResult TableInfo × Option DB :=
  match conn with
  | none => (⟨.error notConnectedMsg, [], []⟩, none)
  | some db => (get_table_info_run db name, some db)

/-- `export_table_to_json` as invoked on the browser. -/
def export_table_to_json (conn : Option DB) (name : String) (limit : Option Int) :
    OpResult JsonDoc × Option DB :=
  match conn with
  | none => (⟨.error notConnectedMsg, [], []⟩, none)
  | some db => (export_table_to_json_run db name limit, some db)

/-- `export_table_to_csv` as invoked on the browser. -/
def export_table_to_csv (conn : Option DB) (name : String) (limit : Option Int) :
    OpResult Unit × Option DB :=
  match conn with
  | none => (⟨.error notConnectedMsg, [], []⟩, none)
  | some db => (export_table_to_csv_run db name limit, some db)

/-- `close()`: if `self.conn` is set, call `self.conn.close()` and clear it;
otherwise do nothing.  The second component counts the underlying
`Connection.close` calls performed. -/
def close (conn : Option DB) : Option DB × Nat :=
  match conn with
  | none => (none, 0)
  | some _ => (none, 1)

/-! ### Resource accounting -/

/-- Replay an event trace over a `(live sessions, live cursors)` counter.
Closing a session also releases the cursors opened within it (WiredTiger
session semantics), hence `closeSession` zeroes the cursor count. -/
def runEvents : List Ev → Nat × Nat → Nat × Nat
  | [], st => st
  | .openSession :: es, (s, c) => runEvents es (s + 1, c)
  | .closeSession :: es, (s, _) => runEvents es (s - 1, 0)
  | .openCursor :: es, (s, c) => runEvents es (s, c + 1)
  | .closeCursor :: es, (s, c) => runEvents es (s, c - 1)

/-- A trace is balanced when it releases everything it acquired. -/
def balanced (evs : List Ev) : Prop := runEvents evs (0, 0) = (0, 0)

/-! ### Lemmas: UTF-8 round trip -/

theorem utf8DecodeCps_encodeChar (c : Nat) (h : c.isValidChar) (rest : List Nat) :
    utf8DecodeCps (utf8EncodeChar c ++ rest) = (utf8DecodeCps rest).map (c :: ·) := by
  have hv : c < 0xD800 ∨ (0xDFFF < c ∧ c < 0x110000) := h
  rcases Nat.lt_or_ge c 0x80 with h1 | h1
  · have e1 : utf8EncodeChar c = [c] := by rw [utf8EncodeChar, if_pos h1]
    rw [e1, List.singleton_append]
    simp only [utf8DecodeCps]
    rw [if_pos h1]
  · rcases Nat.lt_or_ge c 0x800 with h2 | h2
    · have e1 : utf8EncodeChar c = [0xC0 + c / 0x40, 0x80 + c % 0x40] := by
        rw [utf8EncodeChar, if_neg (by omega), if_pos h2]
      rw [e1]
      simp only [List.cons_append, List.nil_append]
      simp only [utf8DecodeCps]
      rw [if_neg (by omega), if_pos (by omega)]
      simp only [utf8DecodeTail2]
      rw [if_pos (by omega)]
      have hval : (0xC0 + c / 0x40 - 0xC0) * 0x40 + (0x80 + c % 0x40 - 0x80) = c := by
        omega
      rw [hval]
    · rcases Nat.lt_or_ge c 0x10000 with h3 | h3
      · have e1 : utf8EncodeChar c =
            [0xE0 + c / 0x1000, 0x80 + c / 0x40 % 0x40, 0x80 + c % 0x40] := by
          rw [utf8EncodeChar, if_neg (by omega), if_neg (by omega), if_pos h3]
        rw [e1]
        simp only [List.cons_append, List.nil_append]
        simp only [utf8DecodeCps]
        rw [if_neg (by omega), if_neg (by omega), if_pos (by omega)]
        simp only [utf8DecodeTail3]
        have hb1 : ((if 0xE0 + c / 0x1000 = 0xE0 then 0xA0 else 0x80) ≤
              0x80 + c / 0x40 % 0x40 ∧
            0x80 + c / 0x40 % 0x40 ≤ (if 0xE0 + c / 0x1000 = 0xED then 0x9F else 0xBF)) ∧
            0x80 ≤ 0x80 + c % 0x40 ∧ 0x80 + c % 0x40 ≤ 0xBF := by
          constructor
          · constructor
            · rcases Nat.decEq (0xE0 + c / 0x1000) 0xE0 with hq | hq
              · rw [if_neg hq]; omega
              · rw [if_pos hq]; omega
            · rcases Nat.decEq (0xE0 + c / 0x1000) 0xED with hq | hq
              · rw [if_neg hq]; omega
              · rw [if_pos hq]; omega
          · omega
        rw [if_pos hb1]
        have hval : (0xE0 + c / 0x1000 - 0xE0) * 0x1000 +
            (0x80 + c / 0x40 % 0x40 - 0x80) * 0x40 + (0x80 + c % 0x40 - 0x80) = c := by
          omega
        rw [hval]
      · have e1 : utf8EncodeChar c =
            [0xF0 + c / 0x40000, 0x80 + c / 0x1000 % 0x40, 0x80 + c / 0x40 % 0x40,
              0x80 + c % 0x40] := by
          rw [utf8EncodeChar, if_neg (by omega), if_neg (by omega), if_neg (by omega)]
        rw [e1]
        simp only [List.cons_append, List.nil_append]
        simp only [utf8DecodeCps]
        rw [if_neg (by omega), if_neg (by omega), if_neg (by omega), if_pos (by omega)]
        simp only [utf8DecodeTail4]
        have hb1 : ((if 0xF0 + c / 0x40000 = 0xF0 then 0x90 else 0x80) ≤
              0x80 + c / 0x1000 % 0x40 ∧
            0x80 + c / 0x1000 % 0x40 ≤ (if 0xF0 + c / 0x40000 = 0xF4 then 0x8F else 0xBF)) ∧
            (0x80 ≤ 0x80 + c / 0x40 % 0x40 ∧ 0x80 + c / 0x40 % 0x40 ≤ 0xBF) ∧
            0x80 ≤ 0x80 + c % 0x40 ∧ 0x80 + c % 0x40 ≤ 0xBF := by
          refine ⟨⟨?_, ?_⟩, by omega, by omega⟩
          · rcases Nat.decEq (0xF0 + c / 0x40000) 0xF0 with hq | hq
            · rw [if_neg hq]; omega
            · rw [if_pos hq]; omega
          · rcases Nat.decEq (0xF0 + c / 0x40000) 0xF4 with hq | hq
            · rw [if_neg hq]; omega
            · rw [if_pos hq]; omega
        rw [if_pos hb1]
        have hval : (0xF0 + c / 0x40000 - 0xF0) * 0x40000 +
            (0x80 + c / 0x1000 % 0x40 - 0x80) * 0x1000 +
            (0x80 + c / 0x40 % 0x40 - 0x80) * 0x40 + (0x80 + c % 0x40 - 0x80) = c := by
          omega
        rw [hval]

theorem utf8DecodeCps_utf8Encode (cs : List Char) :
    utf8DecodeCps ((cs.map (fun ch => utf8EncodeChar ch.toNat)).flatten) =
      some (cs.map Char.toNat) := by
  induction cs with
  | nil => rfl
  | cons c cs ih =>
    simp only [List.map_cons, List.flatten_cons]
    rw [utf8DecodeCps_encodeChar c.toNat c.valid, ih]
    rfl

/-- Round trip at the `String` level: UTF-8 decoding inverts encoding. -/
theorem pyDecodeUtf8_utf8Encode (s : String) : pyDecodeUtf8 (utf8Encode s) = some s := by
  unfold pyDecodeUtf8 utf8Encode
  rw [utf8DecodeCps_utf8Encode]
  unfold stringOfCps
  rw [Option.map_some', List.map_map]
  have hcomp : Char.ofNat ∘ Char.toNat = id := funext Char.ofNat_toNat
  rw [hcomp, List.map_id]

/-! ### Lemmas: hex round trip -/

theorem hexDigitVal_hexDigitChar (n : Nat) (h : n < 16) :
    hexDigitVal (hexDigitChar n) = some n := by
  interval_cases n <;> decide

theorem hexDecodeChars_bytesHex (bs : List Nat) (h : ∀ b ∈ bs, b < 256) :
    hexDecodeChars ((bs.map byteHexChars).flatten) = some bs := by
  induction bs with
  | nil => rfl
  | cons b bs ih =>
    have hb : b < 256 := h b (by simp)
    simp only [List.map_cons, List.flatten_cons, byteHexChars, List.cons_append,
      List.nil_append]
    simp only [hexDecodeChars]
    rw [hexDigitVal_hexDigitChar _ (by omega), hexDigitVal_hexDigitChar _ (by omega),
      ih (fun x hx => h x (List.mem_cons_of_mem _ hx))]
    have hbv : b / 16 * 16 + b % 16 = b := by omega
    simp [hbv]

theorem hexDecode_bytesHex (bs : List Nat) (h : ∀ b ∈ bs, b < 256) :
    hexDecode (bytesHex bs) = some bs := by
  unfold hexDecode bytesHex
  exact hexDecodeChars_bytesHex bs h

theorem hexDigitChar_mem_lower (n : Nat) :
    hexDigitChar n ∈ ("0123456789abcdef").data := by
  unfold hexDigitChar
  split <;> decide

theorem bytesHex_chars_lower (bs : List Nat) :
    ∀ ch ∈ (bytesHex bs).data, ch ∈ ("0123456789abcdef").data := by
  intro ch hch
  simp only [bytesHex, List.mem_flatten, List.mem_map] at hch
  obtain ⟨l, ⟨b, _, rfl⟩, hin⟩ := hch
  simp only [byteHexChars, List.mem_cons, List.not_mem_nil, or_false] at hin
  rcases hin with rfl | rfl
  · exact hexDigitChar_mem_lower _
  · exact hexDigitChar_mem_lower _

/-! ### Lemmas: `_serialize_value` on byte strings -/

theorem serialize_value_bytes_decoded (bs : List Nat) (s : String)
    (h : pyDecodeUtf8 bs = some s) : serialize_value (.bytes bs) = s := by
  simp only [serialize_value]
  rw [h]

theorem serialize_value_utf8Encode (s : String) :
    serialize_value (.bytes (utf8Encode s)) = s :=
  serialize_value_bytes_decoded _ _ (pyDecodeUtf8_utf8Encode s)

theorem serialize_value_bytes_invalid (bs : List Nat) (h : utf8DecodeCps bs = none) :
    serialize_value (.bytes bs) = bytesHex bs := by
  simp only [serialize_value, pyDecodeUtf8]
  rw [h]
  rfl

/-! ### Lemmas: the code-point order is a total preorder -/

theorem cpLt_asymm (a b : List Char) (h : cpLt a b = true) : cpLt b a = false := by
  induction a generalizing b with
  | nil =>
    cases b with
    | nil => simp [cpLt] at h
    | cons y ys => rfl
  | cons x xs ih =>
    cases b with
    | nil => simp [cpLt] at h
    | cons y ys =>
      simp only [cpLt] at h ⊢
      by_cases h1 : x.toNat < y.toNat
      · rw [if_neg (by omega), if_pos (by omega)]
      · by_cases h2 : y.toNat < x.toNat
        · rw [if_neg h1, if_pos h2] at h
          simp at h
        · rw [if_neg h1, if_neg h2] at h
          rw [if_neg (by omega), if_neg (by omega)]
          exact ih ys h

theorem cpLt_conn (a b : List Char) (h1 : cpLt a b = false) (h2 : cpLt b a = false) :
    a = b := by
  induction a generalizing b with
  | nil =>
    cases b with
    | nil => rfl
    | cons y ys => simp [cpLt] at h1
  | cons x xs ih =>
    cases b with
    | nil => simp [cpLt] at h2
    | cons y ys =>
      simp only [cpLt] at h1 h2
      by_cases hxy : x.toNat < y.toNat
      · rw [if_pos hxy] at h1; simp at h1
      · by_cases hyx : y.toNat < x.toNat
        · rw [if_pos hyx] at h2; simp at h2
        · rw [if_neg hxy, if_neg hyx] at h1
          rw [if_neg hyx, if_neg hxy] at h2
          have hxyv : x.toNat = y.toNat := by omega
          have hchar : x = y := by
            calc x = Char.ofNat x.toNat := (Char.ofNat_toNat x).symm
            _ = Char.ofNat y.toNat := by rw [hxyv]
            _ = y := Char.ofNat_toNat y
          rw [hchar, ih ys h1 h2]

theorem cpLt_trans (a b c : List Char) (hab : cpLt a b = true) (hbc : cpLt b c = true) :
    cpLt a c = true := by
  induction a generalizing b c with
  | nil =>
    cases c with
    | nil => cases b <;> simp [cpLt] at hbc
    | cons z zs => rfl
  | cons x xs ih =>
    cases b with
    | nil => simp [cpLt] at hab
    | cons y ys =>
      cases c with
      | nil => simp [cpLt] at hbc
      | cons z zs =>
        simp only [cpLt] at hab hbc ⊢
        by_cases h1 : x.toNat < y.toNat
        · by_cases h2 : y.toNat < z.toNat
          · rw [if_pos (by omega)]
          · by_cases h3 : z.toNat < y.toNat
            · rw [if_neg h2, if_pos h3] at hbc; simp at hbc
            · rw [if_pos (by omega)]
        · by_cases h1' : y.toNat < x.toNat
          · rw [if_neg h1, if_pos h1'] at hab; simp at hab
          · rw [if_neg h1, if_neg h1'] at hab
            by_cases h2 : y.toNat < z.toNat
            · rw [if_pos (by omega)]
            · by_cases h3 : z.toNat < y.toNat
              · rw [if_neg h2, if_pos h3] at hbc; simp at hbc
              · rw [if_neg h2, if_neg h3] at hbc
                rw [if_neg (by omega), if_neg (by omega)]
                exact ih ys zs hab hbc

instance : IsTotal String pyLeProp := by
  constructor
  intro a b
  unfold pyLeProp pyStrLe pyStrLt
  cases hc : cpLt b.data a.data
  · left
    rfl
  · right
    rw [cpLt_asymm _ _ hc]
    rfl

instance : IsTrans String pyLeProp := by
  constructor
  intro a b c hab hbc
  unfold pyLeProp pyStrLe pyStrLt at hab hbc ⊢
  have hba : cpLt b.data a.data = false := by
    cases hc : cpLt b.data a.data
    · rfl
    · rw [hc] at hab; simp at hab
  have hcb : cpLt c.data b.data = false := by
    cases hc : cpLt c.data b.data
    · rfl
    · rw [hc] at hbc; simp at hbc
  cases hca : cpLt c.data a.data
  · rfl
  · exfalso
    cases hbc' : cpLt b.data c.data
    · have hdata := cpLt_conn _ _ hbc' hcb
      rw [hdata] at hba
      rw [hba] at hca
      simp at hca
    · have := cpLt_trans _ _ _ hbc' hca
      rw [this] at hba
      simp at hba

theorem pySorted_sorted (l : List String) : List.Sorted pyLeProp (pySorted l) :=
  List.sorted_insertionSort pyLeProp l

theorem pySorted_perm (l : List String) : (pySorted l).Perm l :=
  List.perm_insertionSort pyLeProp l

theorem sorted_strict_of_le_nodup (l : List String) (hs : List.Sorted pyLeProp l)
    (hn : l.Nodup) : List.Sorted pyLtProp l := by
  refine hs.imp₂ (fun a b hle hne => ?_) hn
  unfold pyLeProp pyStrLe pyStrLt at hle
  unfold pyLtProp pyStrLt
  cases hlt : cpLt a.data b.data
  · exfalso
    have hba : cpLt b.data a.data = false := by
      cases hc : cpLt b.data a.data
      · rfl
      · rw [hc] at hle; simp at hle
    exact hne (String.ext (cpLt_conn _ _ hlt hba))
  · rfl

/-! ### Lemmas: the `table:` namespace filter and strip -/

theorem hasTableNS_shape (l : List Char) (h : hasTableNS l = true) :
    l = 't' :: 'a' :: 'b' :: 'l' :: 'e' :: ':' :: l.drop 6 := by
  match l, h with
  | c1 :: c2 :: c3 :: c4 :: c5 :: c6 :: rest, h => ?_
  simp only [hasTableNS, Bool.and_eq_true, decide_eq_true_eq] at h
  obtain ⟨⟨⟨⟨⟨e1, e2⟩, e3⟩, e4⟩, e5⟩, e6⟩ := h
  subst e1; subst e2; subst e3; subst e4; subst e5; subst e6
  rfl

theorem splitColonTail_drop (k : String) (h : hasTableNS k.data = true) :
    (splitColonTail k).data = k.data.drop 6 := by
  unfold splitColonTail
  rw [hasTableNS_shape _ h]
  simp [List.dropWhile_cons,
    show (('t' : Char) != ':') = true from by decide,
    show (('a' : Char) != ':') = true from by decide,
    show (('b' : Char) != ':') = true from by decide,
    show (('l' : Char) != ':') = true from by decide,
    show (('e' : Char) != ':') = true from by decide,
    show (((':') : Char) != ':') = false from by decide]

theorem splitColonTail_inj (k1 k2 : String) (h1 : hasTableNS k1.data = true)
    (h2 : hasTableNS k2.data = true) (he : splitColonTail k1 = splitColonTail k2) :
    k1 = k2 := by
  have hd : k1.data.drop 6 = k2.data.drop 6 := by
    rw [← splitColonTail_drop k1 h1, ← splitColonTail_drop k2 h2, he]
  apply String.ext
  rw [hasTableNS_shape _ h1, hasTableNS_shape _ h2, hd]

/-! ### Lemmas: the export loop -/

theorem limitHit_some_iff (l : Int) (n : Nat) :
    limitHit (some l) n = true ↔ l ≠ 0 ∧ l ≤ (n : Int) := by
  simp [limitHit]

/-- The final count always equals the starting count plus the number of
records consumed, on success and on error alike. -/
theorem exportScan_count (rows : List (PyValue × PyValue)) (fault : Option String)
    (limit : Option Int) (count : Nat) :
    (exportScan rows fault limit count).2.1 =
      count + (exportScan rows fault limit count).2.2.length := by
  induction rows generalizing count with
  | nil => simp [exportScan]
  | cons kv rest ih =>
    simp only [exportScan]
    by_cases hl : limitHit limit (count + 1) = true
    · rw [if_pos hl]
      simp
    · rw [if_neg hl]
      simp only [List.length_cons]
      rw [ih (count + 1)]
      omega

/-- With no engine fault and a falsy `limit` (`None` or `0`) or one larger
than what remains, the loop consumes every row. -/
theorem exportScan_no_stop (rows : List (PyValue × PyValue)) (fault : Option String)
    (limit : Option Int) (count : Nat)
    (h : limit = none ∨ limit = some 0 ∨
      ∃ l, limit = some l ∧ (count + rows.length : Int) < l) :
    exportScan rows fault limit count =
      (fault, count + rows.length, rows.map serPair) := by
  induction rows generalizing count with
  | nil => simp [exportScan]
  | cons kv rest ih =>
    simp only [exportScan]
    have hl : limitHit limit (count + 1) = false := by
      rcases h with rfl | rfl | ⟨l, rfl, hlt⟩
      · rfl
      · simp [limitHit]
      · simp only [limitHit, Bool.and_eq_false_iff]
        right
        simp only [decide_eq_false_iff_not, not_le]

        simp only [List.length_cons] at hlt
        push_cast at hlt ⊢
        omega
    rw [if_neg (by simp [hl])]
    have hrec : limit = none ∨ limit = some 0 ∨
        ∃ l, limit = some l ∧ (count + 1 + rest.length : Int) < l := by
      rcases h with rfl | rfl | ⟨l, rfl, hlt⟩
      · exact Or.inl rfl
      · exact Or.inr (Or.inl rfl)
      · refine Or.inr (Or.inr ⟨l, rfl, ?_⟩)
        simp only [List.length_cons] at hlt
        push_cast at hlt ⊢
        omega
    rw [ih (count + 1) hrec]
    simp only [List.map_cons, List.length_cons]
    have : count + 1 + rest.length = count + (rest.length + 1) := by omega
    rw [this]

/-- With no engine fault and a limit `k` with `count < k ≤ count + |rows|`,
the loop stops exactly at `count = k`, having consumed the first
`k - count` rows. -/
theorem exportScan_stop (rows : List (PyValue × PyValue)) (fault : Option String)
    (k : Int) (count : Nat) (hk1 : 1 ≤ k) (hk2 : (count : Int) < k)
    (hk3 : k ≤ (count : Int) + rows.length) :
    exportScan rows fault (some k) count =
      (none, k.toNat, ((rows.take (k.toNat - count)).map serPair)) := by
  induction rows generalizing count with
  | nil =>
    exfalso
    simp only [List.length_nil] at hk3
    omega
  | cons kv rest ih =>
    simp only [exportScan]
    by_cases hl : k ≤ (count : Int) + 1
    · have hke : k = (count : Int) + 1 := by omega
      have hhit : limitHit (some k) (count + 1) = true := by
        rw [limitHit_some_iff]
        constructor
        · omega
        · push_cast
          omega
      rw [if_pos hhit]
      have h1 : k.toNat = count + 1 := by omega
      have h2 : k.toNat - count = 1 := by omega
      rw [h2, h1]
      simp
    · have hmiss : limitHit (some k) (count + 1) = false := by
        cases hh : limitHit (some k) (count + 1)
        · rfl
        · exfalso
          rw [limitHit_some_iff] at hh
          push_cast at hh
          omega
      rw [if_neg (by simp [hmiss])]
      have hrec := ih (count + 1) (by push_cast; omega)
        (by simp only [List.length_cons] at hk3; push_cast at hk3 ⊢; omega)
      rw [hrec]
      have hsplit : k.toNat - count = (k.toNat - (count + 1)) + 1 := by omega
      rw [hsplit]
      simp [List.take_succ_cons]

theorem findFirstMatch_eq_none (rows : List (String × String)) (target : String)
    (h : target ∉ rows.map Prod.fst) : findFirstMatch rows target = none := by
  induction rows with
  | nil => rfl
  | cons kv rest ih =>
    obtain ⟨k, v⟩ := kv
    simp only [List.map_cons, List.mem_cons, not_or] at h
    simp only [findFirstMatch]
    rw [if_neg (fun he => h.1 he.symm), ih h.2]

/-! ### The claims -/

/-- C6: with no open connection (`self.conn = None`), each of the four
public operations fails with the "not connected" `RuntimeError` before
performing any work (no session/cursor events, no file operations) and
leaves the connection state unchanged. -/
theorem C6_not_connected (name : String) (limit : Option Int) :
    list_tables none = (⟨.error notConnectedMsg, [], []⟩, none) ∧
    get_table_info none name = (⟨.error notConnectedMsg, [], []⟩, none) ∧
    export_table_to_json none name limit = (⟨.error notConnectedMsg, [], []⟩, none) ∧
    export_table_to_csv none name limit = (⟨.error notConnectedMsg, [], []⟩, none) :=
  ⟨rfl, rfl, rfl, rfl⟩

/-- C9: `close()` always leaves the state Closed; a second `close()` on the
result is a no-op — it performs zero `Connection.close` calls and raises no
error.  On an Open browser the first `close()` transitions to Closed. -/
theorem C9_close_idempotent (conn : Option DB) :
    (close conn).1 = none ∧ close ((close conn).1) = (none, 0) := by
  cases conn <;> exact ⟨rfl, rfl⟩

/-- C7: every session/cursor pair opened by any of the four operations is
released before the operation returns, on every exit path — normal
completion, early `limit` stop, a caught count error, and a propagated
error (where the `finally` closes the session, which releases its
cursors). -/
theorem C7_resource_discipline (conn : Option DB) (name : String) (limit : Option Int) :
    balanced (list_tables conn).1.events ∧
    balanced (get_table_info conn name).1.events ∧
    balanced (export_table_to_json conn name limit).1.events ∧
    balanced (export_table_to_csv conn name limit).1.events := by
  cases conn with
  | none => exact ⟨rfl, rfl, rfl, rfl⟩
  | some db =>
    refine ⟨?_, ?_, ?_, ?_⟩
    · cases hf : db.metadata.fault <;>
        simp only [list_tables, list_tables_run, hf] <;> rfl
    · cases hm : findFirstMatch db.metadata.rows (tableKey name) with
      | none =>
        cases hf : db.metadata.fault <;>
          simp only [get_table_info, get_table_info_run, hm, hf] <;> rfl
      | some cfg =>
        cases ht : db.tables name with
        | none =>
          simp only [get_table_info, get_table_info_run, hm, ht]
          rfl
        | some scan =>
          cases hs : scan.fault <;>
            simp only [get_table_info, get_table_info_run, hm, ht, hs] <;> rfl
    · cases ht : db.tables name with
      | none =>
        simp only [export_table_to_json, export_table_to_json_run, ht]
        rfl
      | some scan =>
        cases he : (exportScan scan.rows scan.fault limit 0).1 <;>
          simp only [export_table_to_json, export_table_to_json_run, ht, he] <;> rfl
    · cases ht : db.tables name with
      | none =>
        simp only [export_table_to_csv, export_table_to_csv_run, ht]
        rfl
      | some scan =>
        cases he : (exportScan scan.rows scan.fault limit 0).1 <;>
          simp only [export_table_to_csv, export_table_to_csv_run, ht, he] <;> rfl

/-- C5: looking up a table name absent from the catalog returns
`{name, exists: False, config: None, record_count: 0}` with no `error`
entry, raises nothing, and leaves the connection state unchanged. -/
theorem C5_missing_table (db : DB) (name : String)
    (hmem : tableKey name ∉ db.metadata.rows.map Prod.fst)
    (hf : db.metadata.fault = none) :
    (get_table_info (some db) name).1.result = .ok ⟨name, false, none, 0, none⟩ ∧
    (get_table_info (some db) name).2 = some db := by
  simp only [get_table_info, get_table_info_run,
    findFirstMatch_eq_none _ _ hmem, hf]
  constructor <;> trivial

/-- Example database for C5: one table `a`, none called `zz`. -/
def exDbC5 : DB :=
  ⟨⟨[("table:a", "cfgA")], none⟩,
    fun n => if n = "a" then some ⟨[(.str "k", .str "v")], none⟩ else none⟩

theorem C5_missing_table_witness :
    (get_table_info (some exDbC5) "zz").1.result = .ok ⟨"zz", false, none, 0, none⟩ ∧
    (get_table_info (some exDbC5) "zz").2 = some exDbC5 :=
  C5_missing_table exDbC5 "zz" (by decide) rfl

/-- C3 (amended): when the count scan of an existing table raises, the
error is caught locally (the operation still returns a `TableInfo`), a
human-readable message is recorded in `error`, `exists`/`config` are kept —
but `record_count` is `0`, its initial value: `info["record_count"] = count`
runs only after the loop completes, so the partial count is discarded. -/
theorem C3_scan_error_recovery (db : DB) (name : String) (cfg : String)
    (scan : Scan (PyValue × PyValue)) (msg : String)
    (hfind : findFirstMatch db.metadata.rows (tableKey name) = some cfg)
    (ht : db.tables name = some scan) (hf : scan.fault = some msg) :
    (get_table_info (some db) name).1.result =
      .ok ⟨name, true, some cfg, 0, some (countErrMsg msg)⟩ := by
  simp only [get_table_info, get_table_info_run, hfind, ht, hf]

/-- Example database for C3: table `t` yields 2 records, then the cursor
raises `boom`. -/
def exDbC3 : DB :=
  ⟨⟨[("table:t", "cfgT")], none⟩,
    fun n =>
      if n = "t" then some ⟨[(.str "a", .str "b"), (.str "c", .str "d")], some "boom"⟩
      else none⟩

/-- C3 counterexample: the scan of `t` accumulates 2 records before the
fault, yet the returned `record_count` is `0`, not `2` — the claim's
"count accumulated before the failure" does not hold. -/
theorem C3_counterexample :
    (get_table_info (some exDbC3) "t").1.result =
      .ok ⟨"t", true, some "cfgT", 0, some "Could not count records: boom"⟩ ∧
    (exDbC3.tables "t").map (fun s => s.rows.length) = some 2 ∧
    (0 : Nat) ≠ 2 := by
  refine ⟨by decide, by decide, by decide⟩

theorem C3_scan_error_recovery_witness :
    (get_table_info (some exDbC3) "t").1.result =
      .ok ⟨"t", true, some "cfgT", 0, some (countErrMsg "boom")⟩ :=
  C3_scan_error_recovery exDbC3 "t" "cfgT"
    ⟨[(.str "a", .str "b"), (.str "c", .str "d")], some "boom"⟩ "boom"
    (by decide) rfl rfl

/-- C10: `export_table_to_json` is atomic with respect to scan errors —
whenever it propagates an error (missing table or a cursor fault during
iteration), it has performed no file operation: records are buffered in
memory and the directory creation and file write happen only after the
iteration completed and the cursor was closed. -/
theorem C10_json_atomic (db : DB) (name : String) (limit : Option Int) (msg : String)
    (h : (export_table_to_json (some db) name limit).1.result = .error msg) :
    (export_table_to_json (some db) name limit).1.fileOps = [] := by
  cases ht : db.tables name with
  | none => simp [export_table_to_json, export_table_to_json_run, ht]
  | some scan =>
    cases he : (exportScan scan.rows scan.fault limit 0).1 with
    | none =>
      exfalso
      simp only [export_table_to_json, export_table_to_json_run, ht, he] at h
      exact Except.noConfusion h
    | some m =>
      simp only [export_table_to_json, export_table_to_json_run, ht, he]

/-- Example database for C10: table `t` faults after one record. -/
def exDbC10 : DB :=
  ⟨⟨[("table:t", "cfgT")], none⟩,
    fun n => if n = "t" then some ⟨[(.str "a", .str "b")], some "boom"⟩ else none⟩

theorem C10_json_atomic_witness :
    (export_table_to_json (some exDbC10) "t" none).1.fileOps = [] :=
  C10_json_atomic exDbC10 "t" none "boom" (by decide)

/-- C4: on a catalog whose metadata entries have unique keys (and a healthy
metadata scan), `list_tables` returns a strictly ascending (in Python's
code-point string order), duplicate-free list that is exactly the
`table:`-prefixed keys with the prefix stripped, sorted. -/
theorem C4_list_tables_sorted (db : DB)
    (hnodup : (db.metadata.rows.map Prod.fst).Nodup)
    (hf : db.metadata.fault = none) :
    ∃ l, (list_tables (some db)).1.result = .ok l ∧
      List.Sorted pyLtProp l ∧ l.Perm (listTablesNames db.metadata.rows) := by
  refine ⟨pySorted (listTablesNames db.metadata.rows), ?_, ?_, pySorted_perm _⟩
  · simp only [list_tables, list_tables_run, hf]
  · have hrows : db.metadata.rows.Nodup := hnodup.of_map
    have hfil : (db.metadata.rows.filter (fun kv => hasTableNS kv.1.data)).Nodup :=
      hrows.filter _
    have hnames : (listTablesNames db.metadata.rows).Nodup := by
      apply List.Nodup.map_on ?_ hfil
      intro x hx y hy hxy
      have hxmem := List.mem_filter.mp hx
      have hymem := List.mem_filter.mp hy
      have hkey : x.1 = y.1 := splitColonTail_inj x.1 y.1 hxmem.2 hymem.2 hxy
      exact List.inj_on_of_nodup_map hnodup hxmem.1 hymem.1 hkey
    exact sorted_strict_of_le_nodup _ (pySorted_sorted _)
      ((pySorted_perm _).nodup_iff.mpr hnames)

/-- Example database for C4: two tables listed out of order, plus a
non-table metadata entry. -/
def exDbC4 : DB :=
  ⟨⟨[("table:users", "cu"), ("colgroup:users", "x"), ("table:logs", "cl")], none⟩,
    fun _ => none⟩

theorem C4_list_tables_sorted_witness :
    ∃ l, (list_tables (some exDbC4)).1.result = .ok l ∧
      List.Sorted pyLtProp l ∧ l.Perm (listTablesNames exDbC4.metadata.rows) :=
  C4_list_tables_sorted exDbC4 (by decide) rfl

/-- C2: the value codec is the identity on valid UTF-8 text — encoding any
text and serializing those bytes yields the text back, and any byte string
that decodes yields its decoded text; a byte string that is not valid UTF-8
serializes to the lowercase hex rendering of the exact bytes, which
hex-decodes back to the original bytes. -/
theorem C2_serialize_value_codec :
    (∀ s : String, serialize_value (.bytes (utf8Encode s)) = s) ∧
    (∀ (bs : List Nat) (s : String), pyDecodeUtf8 bs = some s →
      serialize_value (.bytes bs) = s) ∧
    (∀ bs : List Nat, utf8DecodeCps bs = none →
      serialize_value (.bytes bs) = bytesHex bs ∧
      (∀ ch ∈ (serialize_value (.bytes bs)).data, ch ∈ ("0123456789abcdef").data) ∧
      ((∀ b ∈ bs, b < 256) → hexDecode (serialize_value (.bytes bs)) = some bs)) := by
  refine ⟨serialize_value_utf8Encode, serialize_value_bytes_decoded, fun bs h => ?_⟩
  have he := serialize_value_bytes_invalid bs h
  refine ⟨he, ?_, fun hb => ?_⟩
  · rw [he]
    exact bytesHex_chars_lower bs
  · rw [he]
    exact hexDecode_bytesHex bs hb

theorem C2_serialize_value_codec_witness :
    serialize_value (.bytes (utf8Encode "héllo, wörld")) = "héllo, wörld" ∧
    serialize_value (.bytes [0xC3, 0x28, 0xFF]) = "c328ff" ∧
    hexDecode "c328ff" = some [0xC3, 0x28, 0xFF] := by
  have h2 := C2_serialize_value_codec.2.2 [0xC3, 0x28, 0xFF] (by decide)
  have he : serialize_value (.bytes [0xC3, 0x28, 0xFF]) = "c328ff" :=
    h2.1.trans (by decide)
  exact ⟨C2_serialize_value_codec.1 "héllo, wörld", he, he ▸ h2.2.2 (by decide)⟩

/-- C1 (amended): with a healthy scan, export (JSON and CSV) emits exactly
`k` records — the first `k` in cursor order — when `limit = k` and
`1 ≤ k ≤ N`; with `limit = None`, `limit = 0` (falsy in Python, so the
limit check is skipped), or `k > N`, it emits all `N` records; and the JSON
`record_count` always equals the number of records emitted. -/
theorem C1_export_limit (db : DB) (name : String) (scan : Scan (PyValue × PyValue))
    (k : Int) (ht : db.tables name = some scan) (hf : scan.fault = none) :
    (1 ≤ k → k ≤ (scan.rows.length : Int) →
      (export_table_to_json (some db) name (some k)).1.result =
        .ok ⟨name, k.toNat, (scan.rows.take k.toNat).map serPair⟩ ∧
      (export_table_to_csv (some db) name (some k)).1.fileOps =
        .mkdirParents :: .csvRow ["key", "value"] ::
          csvRowOps ((scan.rows.take k.toNat).map serPair)) ∧
    ((k = 0 ∨ (scan.rows.length : Int) < k) →
      (export_table_to_json (some db) name (some k)).1.result =
        .ok ⟨name, scan.rows.length, scan.rows.map serPair⟩ ∧
      (export_table_to_csv (some db) name (some k)).1.fileOps =
        .mkdirParents :: .csvRow ["key", "value"] :: csvRowOps (scan.rows.map serPair)) ∧
    ((export_table_to_json (some db) name none).1.result =
      .ok ⟨name, scan.rows.length, scan.rows.map serPair⟩ ∧
      (export_table_to_csv (some db) name none).1.fileOps =
        .mkdirParents :: .csvRow ["key", "value"] :: csvRowOps (scan.rows.map serPair)) ∧
    (∀ (limit : Option Int) (doc : JsonDoc),
      (export_table_to_json (some db) name limit).1.result = .ok doc →
      doc.record_count = doc.records.length) := by
  refine ⟨?_, ?_, ?_, ?_⟩
  · intro hk1 hk2
    have hs := exportScan_stop scan.rows scan.fault k 0 hk1 (by omega)
      (by push_cast; omega)
    constructor
    · simp only [export_table_to_json, export_table_to_json_run, ht]
      rw [hs]
      simp
    · simp only [export_table_to_csv, export_table_to_csv_run, ht]
      rw [hs]
      simp
  · intro hk0
    have hside : (some k : Option Int) = none ∨ (some k : Option Int) = some 0 ∨
        ∃ l, (some k : Option Int) = some l ∧ ((0 : Nat) + scan.rows.length : Int) < l := by
      rcases hk0 with rfl | hlt
      · exact Or.inr (Or.inl rfl)
      · exact Or.inr (Or.inr ⟨k, rfl, by push_cast; omega⟩)
    have hs := exportScan_no_stop scan.rows scan.fault (some k) 0 hside
    rw [hf] at hs
    constructor
    · simp only [export_table_to_json, export_table_to_json_run, ht]
      rw [hf, hs]
      simp
    · simp only [export_table_to_csv, export_table_to_csv_run, ht]
      rw [hf, hs]
  · have hs := exportScan_no_stop scan.rows scan.fault none 0 (Or.inl rfl)
    rw [hf] at hs
    constructor
    · simp only [export_table_to_json, export_table_to_json_run, ht]
      rw [hf, hs]
      simp
    · simp only [export_table_to_csv, export_table_to_csv_run, ht]
      rw [hf, hs]
  · intro limit doc hdoc
    simp only [export_table_to_json, export_table_to_json_run, ht] at hdoc
    cases he : (exportScan scan.rows scan.fault limit 0).1 with
    | some m =>
      rw [he] at hdoc
      simp at hdoc
    | none =>
      rw [he] at hdoc
      simp only [Except.ok.injEq] at hdoc
      subst hdoc
      simpa using exportScan_count scan.rows scan.fault limit 0

/-- Example database for C1's counterexample: one table `t` holding exactly
one record. -/
def exDbC1 : DB :=
  ⟨⟨[("table:t", "cfgT")], none⟩,
    fun n => if n = "t" then some ⟨[(.str "k1", .str "v1")], none⟩ else none⟩

/-- C1 counterexample: with `limit=0` and `N = 1` (so `0 ≤ k ≤ N`), the
claim demands 0 emitted records, but both exports emit 1: Python's
`if limit and count >= limit` treats `0` as falsy and never stops. -/
theorem C1_counterexample :
    (export_table_to_json (some exDbC1) "t" (some 0)).1.result =
      .ok ⟨"t", 1, [("k1", "v1")]⟩ ∧
    (export_table_to_csv (some exDbC1) "t" (some 0)).1.fileOps =
      [.mkdirParents, .csvRow ["key", "value"], .csvRow ["k1", "v1"]] ∧
    (1 : Nat) ≠ 0 := by
  refine ⟨by decide, by decide, by decide⟩

/-- Example scan and database for C1's witness: table `t` with two
records. -/
def exScanC1 : Scan (PyValue × PyValue) :=
  ⟨[(.str "k1", .str "v1"), (.str "k2", .str "v2")], none⟩

def exDbC1w : DB :=
  ⟨⟨[("table:t", "cfgT")], none⟩,
    fun n => if n = "t" then some exScanC1 else none⟩

theorem C1_export_limit_witness :
    (export_table_to_json (some exDbC1w) "t" (some 1)).1.result =
      .ok ⟨"t", 1, [("k1", "v1")]⟩ ∧
    (export_table_to_csv (some exDbC1w) "t" (some 1)).1.fileOps =
      [.mkdirParents, .csvRow ["key", "value"], .csvRow ["k1", "v1"]] := by
  have h := (C1_export_limit exDbC1w "t" exScanC1 1 rfl rfl).1 (by decide) (by decide)
  obtain ⟨h1, h2⟩ := h
  constructor
  · rw [h1]
    decide
  · rw [h2]
    decide

/-- C8 (amended): a composite (tuple) value is rendered by Python's
`str()`, i.e. the elements' `repr` renderings (string elements quoted,
bytes elements `b`-prefixed — not the codec's own rendering) joined with
the fixed separator `", "` and wrapped in parentheses, with a trailing
comma for a 1-tuple. -/
theorem C8_tuple_render (vs : List PyValue) :
    serialize_value (.tup vs) =
      "(" ++ String.intercalate ", " (pyReprList vs) ++
        (if vs.length = 1 then ",)" else ")") ∧
    pyReprList vs = vs.map pyRepr := by
  constructor
  · simp only [serialize_value, pyStr, pyRepr]
  · induction vs with
    | nil => rfl
    | cons v rest ih => simp only [pyReprList, List.map_cons, ih]

/-- C8 counterexample: `str "a"` and `bytes [97]` have the same codec
rendering (`"a"`), yet the 1-tuples containing them serialize differently —
so the composite rendering is not any join-and-wrap of the elements'
codec renderings; the elements are rendered with `repr` instead
(`"('a',)"`, not `"(a,)"`). -/
theorem C8_counterexample :
    serialize_value (.str "a") = serialize_value (.bytes [97]) ∧
    serialize_value (.tup [.str "a"]) ≠ serialize_value (.tup [.bytes [97]]) ∧
    serialize_value (.tup [.str "a"]) = "('a',)" ∧
    serialize_value (.tup [.str "a"]) ≠ "(" ++ serialize_value (.str "a") ++ ",)" := by
  refine ⟨by decide, by decide, by decide, by decide⟩
